import Mathlib

/-!
Verification of the WikiScraper repository against its specification.

This file gives a shallow embedding, in Lean 4, of the parts of the
repository that the specification's testable claims are about:

given code locations:
 1. the link filter of WikiScraper.get_internal_links (src/scraper.py,
    lines 174-182);
 2. the bounded breadth-first crawl loop of ScraperManager.scrape,
    branch 4, auto-count-words (src/manager.py, lines 92-123);
 3. the tokenizer and word-count merge of DataAnalyzer.update_word_counts
    (src/data_analysis.py, lines 93-140);
 4. the dependency validation of WikiArgumentParser._validate_dependencies
    (src/argument.py, lines 120-141).

Python strings are modelled as lists of characters; the page environment
(network plus HTML parsing, src/scraper.py _get_soup and the div lookup)
is modelled as a function from page identifiers to an abstract fetch
result.  The crawl loop is modelled as a fuel-indexed recursion that
emits the ordered list of its observable effects (progress prints,
collaborator calls, queue appends, pacing sleeps).
-/

/-- Python strings, modelled as lists of characters. -/
abbrev Str : Type := List Char

/-! ## Link filtering: WikiScraper.get_internal_links, src/scraper.py 174-182 -/

/-- Fuel-indexed worker for removing every occurrence of a pattern.
The fuel is an upper bound on the number of characters consumed and is
instantiated with the length of the string, which always suffices. -/
def removeOccsF (pat : Str) : Nat → Str → Str
  | 0, s => s
  | _ + 1, [] => []
  | fuel + 1, c :: rest =>
    if !pat.isEmpty && pat.isPrefixOf (c :: rest) then
      removeOccsF pat fuel ((c :: rest).drop pat.length)
    else
      c :: removeOccsF pat fuel rest

/-- Semantics of the Python expression s.replace(pat, two quotes), as used
on line 181 of src/scraper.py: every non-overlapping occurrence of the
pattern, scanning left to right, is removed (not only a leading one). -/
def removeOccs (pat s : Str) : Str :=
  removeOccsF pat s.length s

/-- The internal-article path marker of the site, line 179 of src/scraper.py. -/
def wikiRoot : Str := "/wiki/".toList

/-- Acceptance test of line 179 of src/scraper.py: the href starts with
the internal-article marker and contains no colon anywhere. -/
def acceptHref (h : Str) : Bool :=
  wikiRoot.isPrefixOf h && !(h.contains ':')

/-- The loop of lines 174-182 of src/scraper.py, restricted to its pure
part: each href of the page, in order, is tested by acceptHref and, when
accepted, appended after removal of the marker occurrences. -/
def filterLinks (hrefs : List Str) : List Str :=
  hrefs.foldl
    (fun links h => if acceptHref h then links ++ [removeOccs wikiRoot h] else links)
    []

/-- Modelled from the spec, section 4.3, for comparison with the code:
the claim says accepted hrefs have the path marker stripped, meaning the
leading occurrence removed.  This definition follows those words. -/
def filterLinksSpecced (hrefs : List Str) : List Str :=
  (hrefs.filter acceptHref).map (fun h => h.drop wikiRoot.length)

/-! ## Page environment: src/scraper.py _get_soup, get_text, get_internal_links -/

/-- Content region of a fetched page: the full body text produced by
get_text on the located content div, and the href attributes of the
anchor tags inside it. -/
structure PageDiv where
  text : Str
  hrefs : List Str

/-- Result of _get_soup followed by the content-div lookup: the fetch can
fail (HTTP 404 or a network error, lines 49-58 of src/scraper.py, both of
which make _get_soup return None), or the page parses but the content div
is absent (the extraction-failure branches), or the content div is found. -/
inductive SoupRes
  | fetchFail
  | page (div : Option PageDiv)

/-- A deterministic page environment: what fetching each identifier yields. -/
abbrev Env : Type := Str → SoupRes

/-- WikiScraper.get_text, src/scraper.py lines 130-153: None when the
fetch fails or the content div is missing, otherwise the text of the div
(possibly empty). -/
def get_text (env : Env) (id : Str) : Option Str :=
  match env id with
  | .fetchFail => none
  | .page none => none
  | .page (some d) => some d.text

/-- WikiScraper.get_internal_links, src/scraper.py lines 155-184: the
empty list when the fetch fails or the content div is missing, otherwise
the filtered links of the div. -/
def get_internal_links (env : Env) (id : Str) : List Str :=
  match env id with
  | .fetchFail => []
  | .page none => []
  | .page (some d) => filterLinks d.hrefs

/-! ## The crawl loop: ScraperManager.scrape branch 4, src/manager.py 92-123 -/

/-- Observable effects of one run of the crawl loop, in program order:
the progress print of line 105 (carrying the size of the visited set, the
identifier and its depth), the get_text call of line 108, the
update_word_counts call of line 110, the get_internal_links call of line
114, each queue append of line 118, and the pacing sleep of line 123
(which suspends for the configured wait). -/
inductive Ev
  | processing (n : Nat) (id : Str) (depth : Nat)
  | getTextCall (id : Str)
  | mergeCall (text : Str)
  | getLinksCall (id : Str)
  | enqueue (id : Str) (depth : Nat)
  | sleep
deriving DecidableEq

/-- Lines 109-110 of src/manager.py: update_word_counts is called exactly
when the fetched text is truthy, that is, present and non-empty. -/
def textEvents (t : Option Str) : List Ev :=
  match t with
  | some s => if s.isEmpty then [] else [Ev.mergeCall s]
  | none => []

/-- Lines 116-118 of src/manager.py: each new link not in the visited set
is appended to the queue paired with the incremented depth.  The check is
against the visited set only, not against the queue contents. -/
def enqueueNew (visited : List Str) (links : List Str) (depth : Nat) : List (Str × Nat) :=
  (links.filter (fun l => !(visited.contains l))).map (fun l => (l, depth + 1))

/-- Lines 113-118 of src/manager.py: the queue entries appended while one
node is handled.  Links are sought only when the node depth is strictly
below the configured maximum; the visited set already contains the node. -/
def stepEntries (env : Env) (maxD : Nat) (id : Str) (depth : Nat) (visited : List Str) :
    List (Str × Nat) :=
  if depth < maxD then enqueueNew (id :: visited) (get_internal_links env id) depth else []

/-- Events emitted while one fresh node is handled, before the pacing
check: the progress print, the get_text call, the conditional merge, the
conditional get_internal_links call, and one enqueue event per append. -/
def stepTrace (env : Env) (maxD : Nat) (id : Str) (depth : Nat) (visited : List Str) :
    List Ev :=
  [Ev.processing (visited.length + 1) id depth, Ev.getTextCall id]
    ++ textEvents (get_text env id)
    ++ (if depth < maxD then [Ev.getLinksCall id] else [])
    ++ (stepEntries env maxD id depth visited).map (fun p => Ev.enqueue p.1 p.2)

/-- The while loop of lines 96-123 of src/manager.py, as a fuel-indexed
recursion producing the ordered list of observable effects.  A dequeued
identifier already in the visited set is skipped with no effect (lines
100-101); otherwise it is added to the visited set and handled, and a
pacing sleep occurs exactly when the queue is non-empty afterwards (lines
122-123).  The fuel only truncates runs that would outlive it; every
claim is either proved for all fuel values or evaluated at a fuel large
enough for the run to complete. -/
def scrapeAutoCount (env : Env) (maxD : Nat) : Nat → List (Str × Nat) → List Str → List Ev
  | 0, _, _ => []
  | _ + 1, [], _ => []
  | fuel + 1, (id, depth) :: rest, visited =>
    if id ∈ visited then
      scrapeAutoCount env maxD fuel rest visited
    else
      stepTrace env maxD id depth visited
        ++ (if rest ++ stepEntries env maxD id depth visited = [] then [] else [Ev.sleep])
        ++ scrapeAutoCount env maxD fuel
            (rest ++ stepEntries env maxD id depth visited) (id :: visited)

/-- Identifiers of the processing events of a trace, in order: one entry
per node actually handled (dequeued and not skipped). -/
def processingIds (tr : List Ev) : List Str :=
  tr.filterMap (fun e =>
    match e with
    | .processing _ id _ => some id
    | _ => none)

/-- Recognizer of the pacing event. -/
def isSleepEv : Ev → Bool
  | .sleep => true
  | _ => false

/-- Number of pacing sleeps of a trace. -/
def sleepCount (tr : List Ev) : Nat :=
  tr.countP isSleepEv

/-- Recognizer of the progress-print event. -/
def isProcessingEv : Ev → Bool
  | .processing _ _ _ => true
  | _ => false

/-- Number of pacing sleeps occurring after the last processing event of
a trace (zero when no processing event exists). -/
def sleepsAfterLastProcessing (tr : List Ev) : Nat :=
  sleepCount (tr.reverse.takeWhile (fun e => !isProcessingEv e))

/-- Scanner for the pacing discipline: the flag records whether a
processing event has been seen with no pacing sleep after it yet.  The
scan fails exactly when some processing event follows another one with no
sleep strictly between them. -/
def pacedAux : Bool → List Ev → Bool
  | _, [] => true
  | need, e :: rest =>
    match e with
    | .processing _ _ _ => if need then false else pacedAux true rest
    | .sleep => pacedAux false rest
    | _ => pacedAux need rest

/-- A trace is well paced when between any two successive processing
events at least one pacing sleep occurs. -/
def pacedOK (tr : List Ev) : Bool :=
  pacedAux false tr

/-! ## Word counting: DataAnalyzer.update_word_counts, src/data_analysis.py 93-140 -/

/-- Whitespace characters of the Python str.split with no argument,
restricted to ASCII: space, tab, newline, carriage return, vertical tab
and form feed. -/
def pyIsSpace (c : Char) : Bool :=
  c = ' ' || c = '\t' || c = '\n' || c = '\r' || c = '\x0b' || c = '\x0c'

/-- Worker for pySplit: the first argument accumulates the current word
in reverse. -/
def pySplitGo : Str → Str → List Str
  | cur, [] => if cur.isEmpty then [] else [cur.reverse]
  | cur, c :: rest =>
    if pyIsSpace c then
      if cur.isEmpty then pySplitGo [] rest else cur.reverse :: pySplitGo [] rest
    else
      pySplitGo (c :: cur) rest

/-- Semantics of the Python text.split() of line 114 of
src/data_analysis.py: split on whitespace runs, producing no empty words. -/
def pySplit (t : Str) : List Str :=
  pySplitGo [] t

/-- The punctuation set stripped on line 119 of src/data_analysis.py. -/
def stripSet : Str := ".,!?;:()[]\"'".toList

/-- Semantics of the Python raw_word.strip of line 119 of
src/data_analysis.py: remove the characters of the strip set from both
ends, repeatedly, leaving internal characters untouched. -/
def pyStrip (w : Str) : Str :=
  ((w.dropWhile (fun c => stripSet.contains c)).reverse.dropWhile
    (fun c => stripSet.contains c)).reverse

/-- Lines 119-121 of src/data_analysis.py: strip the punctuation set from
both ends, then lowercase. -/
def cleanToken (w : Str) : Str :=
  (pyStrip w).map Char.toLower

/-- The tokens a text contributes to the store: split on whitespace,
clean each token, and discard the ones that became empty (lines 114-125
of src/data_analysis.py). -/
def tokens (t : Str) : List Str :=
  ((pySplit t).map cleanToken).filter (fun w => !w.isEmpty)

/-- The in-memory word-count mapping: a total function defaulting to
zero, matching the Python dict whose absent keys stand for zero. -/
abbrev Store : Type := Str → Nat

/-- The store with no recorded word. -/
def emptyStore : Store := fun _ => 0

/-- Lines 127-132 of src/data_analysis.py: one occurrence of a word
raises its count by one; an unseen word gets count one. -/
def bump (s : Store) (w : Str) : Store :=
  fun x => if x = w then s x + 1 else s x

/-- The pure part of DataAnalyzer.update_word_counts (lines 111-132 of
src/data_analysis.py): every token of the text bumps its count. -/
def mergeText (s : Store) (t : Str) : Store :=
  (tokens t).foldl bump s

/-- State of the word-counts file between calls: absent, holding
unparseable content, or holding a serialized store. -/
inductive FileContent
  | absent
  | corrupt
  | valid (s : Store)

/-- Lines 100-109 of src/data_analysis.py: an absent file yields the
empty store; unparseable content yields the empty store and the decode
warning of line 106 (the flag records that the warning was printed); a
valid file yields its store. -/
def loadStore : FileContent → Store × Bool
  | .absent => (emptyStore, false)
  | .corrupt => (emptyStore, true)
  | .valid s => (s, false)

/-- DataAnalyzer.update_word_counts at the file level, lines 93-140 of
src/data_analysis.py: load the store (degrading to empty on corruption),
merge the text, and save the result back before returning.  The returned
flag records whether the corruption warning was printed. -/
def update_word_counts (fc : FileContent) (t : Str) : FileContent × Bool :=
  (FileContent.valid (mergeText (loadStore fc).1 t), (loadStore fc).2)

/-- Texts passed to update_word_counts during a crawl trace, in order
(line 110 of src/manager.py). -/
def mergedTexts (tr : List Ev) : List Str :=
  tr.filterMap (fun e =>
    match e with
    | .mergeCall t => some t
    | _ => none)

/-- Iterated file-level merging: the word-counts file after a sequence of
update_word_counts calls, each of which saves before the next begins. -/
def runMerges (fc : FileContent) (texts : List Str) : FileContent :=
  texts.foldl (fun f t => (update_word_counts f t).1) fc

/-! ## Argument validation: WikiArgumentParser._validate_dependencies, src/argument.py 120-141 -/

/-- The argparse namespace fields consumed by _validate_dependencies
(src/argument.py).  String options default to None; count, number and
depth are integer options; wait is a float option whose value is never
inspected by the validation (only compared against None), so its payload
is modelled as an integer pair of no further use. -/
structure PyArgs where
  summary : Option Str
  table : Option Str
  count_words : Option Str
  analyze_relative_word_frequency : Bool
  auto_count_words : Option Str
  number : Option Int
  first_row_is_header : Bool
  mode : Option Str
  count : Option Int
  chart : Option Str
  depth : Option Int
  wait : Option Int

/-- Python truthiness of an optional string: None and the empty string
are falsy. -/
def truthyStr (o : Option Str) : Bool :=
  match o with
  | none => false
  | some s => !s.isEmpty

/-- Python truthiness of an optional integer: None and zero are falsy. -/
def truthyInt (o : Option Int) : Bool :=
  match o with
  | none => false
  | some n => decide (n ≠ 0)

/-- Message of line 127 of src/argument.py. -/
def msgTableNumber : Str := "The argument --table requires --number.".toList

/-- Message of line 132 of src/argument.py. -/
def msgFreqMode : Str := "--analyze-relative-word-frequency requires --mode.".toList

/-- Message of line 134 of src/argument.py. -/
def msgFreqCount : Str := "--analyze-relative-word-frequency requires --count.".toList

/-- Message of line 139 of src/argument.py. -/
def msgAutoDepth : Str := "--auto-count-words requires --depth.".toList

/-- Message of line 141 of src/argument.py. -/
def msgAutoWait : Str := "--auto-count-words requires --wait.".toList

/-- WikiArgumentParser._validate_dependencies, src/argument.py lines
120-141: the checks run in program order and the first failing one exits
fatally through parser.error, modelled as the error constructor.  The
table, mode, and action gates test Python truthiness of their values; the
count gate tests truthiness of the integer (so zero fails it); the depth
and wait gates compare against None only. -/
def validate_dependencies (a : PyArgs) : Except Str Unit :=
  if truthyStr a.table && a.number.isNone then .error msgTableNumber
  else if a.analyze_relative_word_frequency && !(truthyStr a.mode) then .error msgFreqMode
  else if a.analyze_relative_word_frequency && !(truthyInt a.count) then .error msgFreqCount
  else if truthyStr a.auto_count_words && a.depth.isNone then .error msgAutoDepth
  else if truthyStr a.auto_count_words && a.wait.isNone then .error msgAutoWait
  else .ok ()

/-- The namespace with the count field replaced, used to compare a
supplied count of zero with an absent count. -/
def setCount (a : PyArgs) (c : Option Int) : PyArgs :=
  ⟨a.summary, a.table, a.count_words, a.analyze_relative_word_frequency,
   a.auto_count_words, a.number, a.first_row_is_header, a.mode, c,
   a.chart, a.depth, a.wait⟩

/-- Invocation selecting frequency analysis with a mode and an explicit
count of zero. -/
def argsFreqZero : PyArgs :=
  ⟨none, none, none, true, none, none, false, some ("article".toList), some 0,
   none, none, none⟩

/-- Invocation selecting the recursive crawl with depth zero and wait
zero. -/
def argsAutoZero : PyArgs :=
  ⟨none, none, none, false, some ("Terraria".toList), none, false, none, none,
   none, some 0, some 0⟩

/-! ## Concrete page environments used by the claims -/

/-- A successfully fetched page with the given body text and hrefs. -/
def pageOf (t : String) (hs : List String) : SoupRes :=
  SoupRes.page (some ⟨t.toList, hs.map String.toList⟩)

/-- Three-page site: A links to B and C, B links to C, C links nowhere.
With maximum depth two, C is enqueued twice (once from A at depth one,
once from B at depth two) and processed once. -/
def envTriangle : Env := fun id =>
  if id = "A".toList then pageOf "a" ["/wiki/B", "/wiki/C"]
  else if id = "B".toList then pageOf "b" ["/wiki/C"]
  else if id = "C".toList then pageOf "c" []
  else SoupRes.fetchFail

/-- Environment in which every fetch fails. -/
def envAllFail : Env := fun _ => SoupRes.fetchFail

/-- Site whose seed page A links to itself and to B. -/
def envSelfLoop : Env := fun id =>
  if id = "A".toList then pageOf "a" ["/wiki/A", "/wiki/B"]
  else if id = "B".toList then pageOf "b" []
  else SoupRes.fetchFail

/-- Site whose seed page A succeeds and links to B, whose fetch fails. -/
def envSeedOk : Env := fun id =>
  if id = "A".toList then pageOf "Hello world" ["/wiki/B"]
  else SoupRes.fetchFail

/-! ## Basic equations of the crawl loop -/

theorem scrapeAutoCount_fuelZero (env : Env) (maxD : Nat) (q : List (Str × Nat))
    (visited : List Str) : scrapeAutoCount env maxD 0 q visited = [] := rfl

theorem scrapeAutoCount_nilQueue (env : Env) (maxD fuel : Nat) (visited : List Str) :
    scrapeAutoCount env maxD fuel [] visited = [] := by
  cases fuel <;> rfl

theorem scrapeAutoCount_skip (env : Env) (maxD fuel : Nat) (id : Str) (depth : Nat)
    (rest : List (Str × Nat)) (visited : List Str) (h : id ∈ visited) :
    scrapeAutoCount env maxD (fuel + 1) ((id, depth) :: rest) visited =
      scrapeAutoCount env maxD fuel rest visited := by
  simp [scrapeAutoCount, h]

theorem scrapeAutoCount_process (env : Env) (maxD fuel : Nat) (id : Str) (depth : Nat)
    (rest : List (Str × Nat)) (visited : List Str) (h : id ∉ visited) :
    scrapeAutoCount env maxD (fuel + 1) ((id, depth) :: rest) visited =
      stepTrace env maxD id depth visited
        ++ (if rest ++ stepEntries env maxD id depth visited = [] then [] else [Ev.sleep])
        ++ scrapeAutoCount env maxD fuel
            (rest ++ stepEntries env maxD id depth visited) (id :: visited) := by
  simp [scrapeAutoCount, h]

theorem get_text_of_fetchFail (env : Env) (id : Str) (h : env id = SoupRes.fetchFail) :
    get_text env id = none := by
  unfold get_text; rw [h]

theorem get_internal_links_of_fetchFail (env : Env) (id : Str)
    (h : env id = SoupRes.fetchFail) : get_internal_links env id = [] := by
  unfold get_internal_links; rw [h]

/-! ## Shapes of the events emitted by one step -/

theorem mem_textEvents {t : Option Str} {e : Ev} (h : e ∈ textEvents t) :
    ∃ s, e = Ev.mergeCall s := by
  unfold textEvents at h
  match t with
  | none => cases h
  | some s =>
    by_cases hs : s.isEmpty
    · simp [hs] at h
    · simp [hs] at h
      exact ⟨s, h⟩

theorem mem_stepEntries {env : Env} {maxD : Nat} {id : Str} {depth : Nat}
    {visited : List Str} {p : Str × Nat} (h : p ∈ stepEntries env maxD id depth visited) :
    p.2 = depth + 1 ∧ depth < maxD := by
  unfold stepEntries at h
  by_cases hd : depth < maxD
  · simp only [if_pos hd] at h
    unfold enqueueNew at h
    rcases List.mem_map.1 h with ⟨l, _, rfl⟩
    exact ⟨rfl, hd⟩
  · simp [if_neg hd] at h

theorem mem_stepTrace {env : Env} {maxD : Nat} {id : Str} {depth : Nat}
    {visited : List Str} {e : Ev} (h : e ∈ stepTrace env maxD id depth visited) :
    e = Ev.processing (visited.length + 1) id depth ∨ e = Ev.getTextCall id ∨
      (∃ s, e = Ev.mergeCall s) ∨ e = Ev.getLinksCall id ∨
      (∃ l, e = Ev.enqueue l (depth + 1) ∧ depth < maxD) := by
  unfold stepTrace at h
  rcases List.mem_append.1 h with h | h
  · rcases List.mem_append.1 h with h | h
    · rcases List.mem_append.1 h with h | h
      · rcases List.mem_cons.1 h with h | h
        · exact Or.inl h
        · rcases List.mem_cons.1 h with h | h
          · exact Or.inr (Or.inl h)
          · cases h
      · exact Or.inr (Or.inr (Or.inl (mem_textEvents h)))
    · by_cases hd : depth < maxD
      · simp only [if_pos hd, List.mem_singleton] at h
        exact Or.inr (Or.inr (Or.inr (Or.inl h)))
      · simp [if_neg hd] at h
  · rcases List.mem_map.1 h with ⟨p, hp, rfl⟩
    rcases mem_stepEntries hp with ⟨h2, hd⟩
    exact Or.inr (Or.inr (Or.inr (Or.inr ⟨p.1, by rw [h2], hd⟩)))

/-! ## Computation rules for processingIds -/

theorem processingIds_append (l1 l2 : List Ev) :
    processingIds (l1 ++ l2) = processingIds l1 ++ processingIds l2 :=
  List.filterMap_append _ _ _

theorem processingIds_textEvents (t : Option Str) : processingIds (textEvents t) = [] := by
  unfold textEvents
  match t with
  | none => rfl
  | some s => by_cases hs : s.isEmpty <;> simp [hs, processingIds]

theorem processingIds_enqueues (ps : List (Str × Nat)) :
    processingIds (ps.map (fun p => Ev.enqueue p.1 p.2)) = [] := by
  induction ps with
  | nil => rfl
  | cons p ps _ => simp [processingIds, List.filterMap_cons]

theorem processingIds_stepTrace (env : Env) (maxD : Nat) (id : Str) (depth : Nat)
    (visited : List Str) : processingIds (stepTrace env maxD id depth visited) = [id] := by
  unfold stepTrace
  rw [processingIds_append, processingIds_append, processingIds_append]
  rw [processingIds_textEvents, processingIds_enqueues]
  have h1 : processingIds [Ev.processing (visited.length + 1) id depth,
      Ev.getTextCall id] = [id] := rfl
  have h2 : processingIds (if depth < maxD then [Ev.getLinksCall id] else []) = [] := by
    split <;> rfl
  rw [h1, h2]
  rfl

theorem processingIds_sleepOpt (c : Prop) [Decidable c] :
    processingIds (if c then [] else [Ev.sleep]) = [] := by
  split <;> rfl

/-! ## Computation rules for sleepCount -/

theorem sleepCount_append (l1 l2 : List Ev) :
    sleepCount (l1 ++ l2) = sleepCount l1 + sleepCount l2 :=
  List.countP_append _ _ _

theorem sleepCount_textEvents (t : Option Str) : sleepCount (textEvents t) = 0 := by
  unfold textEvents
  match t with
  | none => rfl
  | some s => by_cases hs : s.isEmpty <;> simp [hs, sleepCount, isSleepEv]

theorem sleepCount_enqueues (ps : List (Str × Nat)) :
    sleepCount (ps.map (fun p => Ev.enqueue p.1 p.2)) = 0 := by
  induction ps with
  | nil => rfl
  | cons p ps _ => simp [sleepCount, isSleepEv]

theorem sleepCount_stepTrace (env : Env) (maxD : Nat) (id : Str) (depth : Nat)
    (visited : List Str) : sleepCount (stepTrace env maxD id depth visited) = 0 := by
  unfold stepTrace
  rw [sleepCount_append, sleepCount_append, sleepCount_append]
  rw [sleepCount_textEvents, sleepCount_enqueues]
  have h1 : sleepCount [Ev.processing (visited.length + 1) id depth,
      Ev.getTextCall id] = 0 := rfl
  have h2 : sleepCount (if depth < maxD then [Ev.getLinksCall id] else []) = 0 := by
    split <;> rfl
  rw [h1, h2]

/-! ## Invariants of the crawl loop -/

/-- Depth invariant: when every pending queue entry respects the depth
bound, every progress print does, and every enqueue event carries a
positive depth within the bound (so it can only stem from a parent of
depth strictly below the bound). -/
theorem sac_depth_inv (env : Env) (maxD : Nat) :
    ∀ fuel (q : List (Str × Nat)) (visited : List Str),
      (∀ p ∈ q, p.2 ≤ maxD) →
      ∀ e ∈ scrapeAutoCount env maxD fuel q visited,
        (∀ n id d, e = Ev.processing n id d → d ≤ maxD) ∧
        (∀ id d, e = Ev.enqueue id d → 0 < d ∧ d ≤ maxD) := by
  intro fuel
  induction fuel with
  | zero =>
    intro q visited _ e he
    rw [scrapeAutoCount_fuelZero] at he
    cases he
  | succ fuel ih =>
    intro q visited hq e he
    match q with
    | [] =>
      rw [scrapeAutoCount_nilQueue] at he
      cases he
    | (id, depth) :: rest =>
      by_cases hv : id ∈ visited
      · rw [scrapeAutoCount_skip env maxD fuel id depth rest visited hv] at he
        exact ih rest visited (fun p hp => hq p (List.mem_cons_of_mem _ hp)) e he
      · rw [scrapeAutoCount_process env maxD fuel id depth rest visited hv] at he
        have hd0 : depth ≤ maxD := hq (id, depth) (List.mem_cons_self _ _)
        rcases List.mem_append.1 he with h12 | h3
        · rcases List.mem_append.1 h12 with h1 | h2
          · rcases mem_stepTrace h1 with h | h | ⟨s, h⟩ | h | ⟨l, h, hlt⟩
            · subst h
              exact ⟨fun n i d hpr => (by cases hpr; exact hd0), fun i d hen => (by cases hen)⟩
            · subst h
              exact ⟨fun n i d hpr => (by cases hpr), fun i d hen => (by cases hen)⟩
            · subst h
              exact ⟨fun n i d hpr => (by cases hpr), fun i d hen => (by cases hen)⟩
            · subst h
              exact ⟨fun n i d hpr => (by cases hpr), fun i d hen => (by cases hen)⟩
            · subst h
              refine ⟨fun n i d hpr => (by cases hpr), fun i d hen => ?_⟩
              cases hen
              exact ⟨Nat.succ_pos _, hlt⟩
          · have : e = Ev.sleep := by
              by_cases hq2 : rest ++ stepEntries env maxD id depth visited = []
              · simp [hq2] at h2
              · simp only [if_neg hq2, List.mem_singleton] at h2
                exact h2
            subst this
            exact ⟨fun n i d hpr => (by cases hpr), fun i d hen => (by cases hen)⟩
        · refine ih (rest ++ stepEntries env maxD id depth visited) (id :: visited)
            (fun p hp => ?_) e h3
          rcases List.mem_append.1 hp with hp | hp
          · exact hq p (List.mem_cons_of_mem _ hp)
          · rcases mem_stepEntries hp with ⟨h2, hlt⟩
            rw [h2]
            exact hlt

/-- Identifiers printed as processed are fresh relative to the visited
set at entry, and no identifier is printed twice. -/
theorem sac_fresh_nodup (env : Env) (maxD : Nat) :
    ∀ fuel (q : List (Str × Nat)) (visited : List Str),
      (∀ x ∈ processingIds (scrapeAutoCount env maxD fuel q visited), x ∉ visited) ∧
      (processingIds (scrapeAutoCount env maxD fuel q visited)).Nodup := by
  intro fuel
  induction fuel with
  | zero =>
    intro q visited
    rw [scrapeAutoCount_fuelZero]
    exact ⟨fun x hx => absurd hx (List.not_mem_nil x), List.nodup_nil⟩
  | succ fuel ih =>
    intro q visited
    match q with
    | [] =>
      rw [scrapeAutoCount_nilQueue]
      exact ⟨fun x hx => absurd hx (List.not_mem_nil x), List.nodup_nil⟩
    | (id, depth) :: rest =>
      by_cases hv : id ∈ visited
      · rw [scrapeAutoCount_skip env maxD fuel id depth rest visited hv]
        exact ih rest visited
      · rw [scrapeAutoCount_process env maxD fuel id depth rest visited hv]
        have hids : processingIds
            (stepTrace env maxD id depth visited
              ++ (if rest ++ stepEntries env maxD id depth visited = [] then []
                  else [Ev.sleep])
              ++ scrapeAutoCount env maxD fuel
                  (rest ++ stepEntries env maxD id depth visited) (id :: visited)) =
            id :: processingIds (scrapeAutoCount env maxD fuel
              (rest ++ stepEntries env maxD id depth visited) (id :: visited)) := by
          rw [processingIds_append, processingIds_append, processingIds_stepTrace,
            processingIds_sleepOpt]
          rfl
        rw [hids]
        obtain ⟨hfresh, hnodup⟩ := ih
          (rest ++ stepEntries env maxD id depth visited) (id :: visited)
        constructor
        · intro x hx
          rcases List.mem_cons.1 hx with rfl | hx
          · exact hv
          · intro hxv
            exact hfresh x hx (List.mem_cons_of_mem _ hxv)
        · refine List.nodup_cons.2 ⟨fun hid => ?_, hnodup⟩
          exact hfresh id hid (List.mem_cons_self _ _)

/-- Counting form of the pacing discipline: a run can never hold more
processing events than pacing sleeps plus one, since every handled node
except possibly the last is followed by a sleep. -/
theorem sac_count_pacing (env : Env) (maxD : Nat) :
    ∀ fuel (q : List (Str × Nat)) (visited : List Str),
      (processingIds (scrapeAutoCount env maxD fuel q visited)).length ≤
        sleepCount (scrapeAutoCount env maxD fuel q visited) + 1 := by
  intro fuel
  induction fuel with
  | zero =>
    intro q visited
    rw [scrapeAutoCount_fuelZero]
    simp [processingIds, sleepCount]
  | succ fuel ih =>
    intro q visited
    match q with
    | [] =>
      rw [scrapeAutoCount_nilQueue]
      simp [processingIds, sleepCount]
    | (id, depth) :: rest =>
      by_cases hv : id ∈ visited
      · rw [scrapeAutoCount_skip env maxD fuel id depth rest visited hv]
        exact ih rest visited
      · rw [scrapeAutoCount_process env maxD fuel id depth rest visited hv]
        rw [processingIds_append, processingIds_append, processingIds_stepTrace,
          processingIds_sleepOpt]
        rw [sleepCount_append, sleepCount_append, sleepCount_stepTrace]
        by_cases hq2 : rest ++ stepEntries env maxD id depth visited = []
        · rw [if_pos hq2, hq2, scrapeAutoCount_nilQueue]
          simp [processingIds, sleepCount]
        · rw [if_neg hq2]
          have hs1 : sleepCount [Ev.sleep] = 1 := rfl
          rw [hs1]
          have := ih (rest ++ stepEntries env maxD id depth visited) (id :: visited)
          simp only [List.append_nil, List.nil_append, List.singleton_append,
            List.length_cons, List.length_append]
          omega

theorem pacedAux_textEvents (t : Option Str) (need : Bool) (l : List Ev) :
    pacedAux need (textEvents t ++ l) = pacedAux need l := by
  match t with
  | none => rfl
  | some s =>
    have h : textEvents (some s) = if s.isEmpty then [] else [Ev.mergeCall s] := rfl
    rw [h]
    by_cases hs : s.isEmpty
    · rw [if_pos hs, List.nil_append]
    · rw [if_neg hs]
      rfl

theorem pacedAux_enqueues (ps : List (Str × Nat)) (need : Bool) (l : List Ev) :
    pacedAux need (ps.map (fun p => Ev.enqueue p.1 p.2) ++ l) = pacedAux need l := by
  induction ps with
  | nil => rfl
  | cons p ps ih => exact ih

theorem pacedAux_stepTrace (env : Env) (maxD : Nat) (id : Str) (depth : Nat)
    (visited : List Str) (l : List Ev) :
    pacedAux false (stepTrace env maxD id depth visited ++ l) = pacedAux true l := by
  unfold stepTrace
  simp only [List.append_assoc, List.cons_append, List.nil_append]
  have h1 : pacedAux false (Ev.processing (visited.length + 1) id depth
      :: Ev.getTextCall id
      :: (textEvents (get_text env id)
          ++ ((if depth < maxD then [Ev.getLinksCall id] else [])
            ++ ((stepEntries env maxD id depth visited).map (fun p => Ev.enqueue p.1 p.2)
              ++ l)))) =
      pacedAux true (textEvents (get_text env id)
          ++ ((if depth < maxD then [Ev.getLinksCall id] else [])
            ++ ((stepEntries env maxD id depth visited).map (fun p => Ev.enqueue p.1 p.2)
              ++ l))) := by
    simp [pacedAux]
  rw [h1, pacedAux_textEvents]
  by_cases hd : depth < maxD
  · rw [if_pos hd]
    have h2 : pacedAux true ([Ev.getLinksCall id]
        ++ ((stepEntries env maxD id depth visited).map (fun p => Ev.enqueue p.1 p.2) ++ l)) =
        pacedAux true ((stepEntries env maxD id depth visited).map
          (fun p => Ev.enqueue p.1 p.2) ++ l) := rfl
    rw [h2, pacedAux_enqueues]
  · rw [if_neg hd]
    rw [List.nil_append, pacedAux_enqueues]

/-- Positional form of the pacing discipline: in every crawl trace, any
two successive processing events are separated by at least one pacing
sleep. -/
theorem sac_paced (env : Env) (maxD : Nat) :
    ∀ fuel (q : List (Str × Nat)) (visited : List Str),
      pacedOK (scrapeAutoCount env maxD fuel q visited) = true := by
  intro fuel
  induction fuel with
  | zero =>
    intro q visited
    rw [scrapeAutoCount_fuelZero]
    rfl
  | succ fuel ih =>
    intro q visited
    match q with
    | [] =>
      rw [scrapeAutoCount_nilQueue]
      rfl
    | (id, depth) :: rest =>
      by_cases hv : id ∈ visited
      · rw [scrapeAutoCount_skip env maxD fuel id depth rest visited hv]
        exact ih rest visited
      · rw [scrapeAutoCount_process env maxD fuel id depth rest visited hv]
        unfold pacedOK
        rw [List.append_assoc] at *
        rw [pacedAux_stepTrace]
        by_cases hq2 : rest ++ stepEntries env maxD id depth visited = []
        · rw [if_pos hq2, hq2, scrapeAutoCount_nilQueue]
          rfl
        · rw [if_neg hq2]
          have h3 : pacedAux true ([Ev.sleep]
              ++ scrapeAutoCount env maxD fuel
                  (rest ++ stepEntries env maxD id depth visited) (id :: visited)) =
              pacedAux false (scrapeAutoCount env maxD fuel
                  (rest ++ stepEntries env maxD id depth visited) (id :: visited)) := rfl
          rw [h3]
          exact ih (rest ++ stepEntries env maxD id depth visited) (id :: visited)

/-- With maximum depth zero the crawl handles the seed and stops: the
trace is the seed's progress print, its get_text call, and its possible
merge; in particular nothing is ever enqueued. -/
theorem sac_depthZero (env : Env) (fuel : Nat) (seed : Str) :
    ∀ e ∈ scrapeAutoCount env 0 fuel [(seed, 0)] [],
      (∀ n id d, e = Ev.processing n id d → id = seed ∧ d = 0) ∧
      (∀ id d, e ≠ Ev.enqueue id d) := by
  intro e he
  match fuel with
  | 0 =>
    rw [scrapeAutoCount_fuelZero] at he
    cases he
  | fuel + 1 =>
    have hse : stepEntries env 0 seed 0 [] = [] := by
      unfold stepEntries
      simp
    have htr : scrapeAutoCount env 0 (fuel + 1) [(seed, 0)] [] =
        stepTrace env 0 seed 0 [] := by
      rw [scrapeAutoCount_process env 0 fuel seed 0 [] [] (List.not_mem_nil seed), hse]
      simp [scrapeAutoCount_nilQueue]
    rw [htr] at he
    rcases mem_stepTrace he with h | h | ⟨s, h⟩ | h | ⟨l, h, hlt⟩
    · subst h
      exact ⟨fun n i d hpr => (by cases hpr; exact ⟨rfl, rfl⟩),
        fun i d hen => (by cases hen)⟩
    · subst h
      exact ⟨fun n i d hpr => (by cases hpr), fun i d hen => (by cases hen)⟩
    · subst h
      exact ⟨fun n i d hpr => (by cases hpr), fun i d hen => (by cases hen)⟩
    · subst h
      exact ⟨fun n i d hpr => (by cases hpr), fun i d hen => (by cases hen)⟩
    · exact absurd hlt (Nat.not_lt_zero 0)

/-! ## Characterizations of the link filter and the word-count merge -/

/-- The append-accumulator loop of get_internal_links builds, in order of
first appearance and without removing duplicates, exactly the accepted
hrefs with the marker occurrences removed. -/
theorem filterLinks_eq (hrefs : List Str) :
    filterLinks hrefs = (hrefs.filter acceptHref).map (removeOccs wikiRoot) := by
  have hgen : ∀ (hs : List Str) (acc : List Str),
      hs.foldl (fun links h =>
        if acceptHref h then links ++ [removeOccs wikiRoot h] else links) acc =
        acc ++ (hs.filter acceptHref).map (removeOccs wikiRoot) := by
    intro hs
    induction hs with
    | nil => intro acc; simp
    | cons h hs ih =>
      intro acc
      by_cases hacc : acceptHref h
      · rw [List.foldl_cons, if_pos hacc, ih]
        simp [List.filter_cons, hacc, List.append_assoc]
      · rw [List.foldl_cons, if_neg hacc, ih]
        simp [List.filter_cons, hacc]
  exact hgen hrefs []

/-- Pointwise value of one merge: each key gains exactly the number of
its occurrences among the tokens of the merged text. -/
theorem mergeText_apply (s : Store) (t : Str) (w : Str) :
    mergeText s t w = s w + (tokens t).count w := by
  have hgen : ∀ (l : List Str) (s : Store), l.foldl bump s w = s w + l.count w := by
    intro l
    induction l with
    | nil => intro s; simp
    | cons a l ih =>
      intro s
      rw [List.foldl_cons, ih]
      by_cases hw : w = a
      · subst hw
        simp [bump, List.count_cons]
        omega
      · have hb : bump s a w = s w := by
          simp [bump, hw]
        rw [hb, List.count_cons]
        have : ¬ (a == w) = true := by
          simp
          intro h
          exact hw h.symm
        simp [this]
  exact hgen (tokens t) s

/-- Iterating the file-level merge from a valid store folds the pure
merge over the texts and stays valid. -/
theorem runMerges_valid (texts : List Str) :
    ∀ s : Store, runMerges (FileContent.valid s) texts =
      FileContent.valid (texts.foldl mergeText s) := by
  induction texts with
  | nil => intro s; rfl
  | cons t ts ih =>
    intro s
    rw [List.foldl_cons]
    exact ih (mergeText s t)

/-- Membership in the enqueued block: a link is appended with the
incremented depth exactly when it occurs among the page's links and is
absent from the visited set. -/
theorem mem_enqueueNew (visited links : List Str) (depth : Nat) (l : Str) :
    (l, depth + 1) ∈ enqueueNew visited links depth ↔ (l ∈ links ∧ l ∉ visited) := by
  unfold enqueueNew
  simp [List.mem_filter, List.mem_map, List.elem_eq_mem]

/-- Unfolding of one fresh failing node: when the fetch of the dequeued
identifier fails, the loop prints the progress line, calls get_text
(obtaining nothing, so it merges nothing), still calls
get_internal_links when depth permits (obtaining no links, so it
enqueues nothing), sleeps only when queue items remain, and continues
with the untouched rest of the queue. -/
theorem sac_fetchFail_step (env : Env) (maxD fuel : Nat) (id : Str) (depth : Nat)
    (rest : List (Str × Nat)) (visited : List Str)
    (hfail : env id = SoupRes.fetchFail) (hv : id ∉ visited) :
    scrapeAutoCount env maxD (fuel + 1) ((id, depth) :: rest) visited =
      [Ev.processing (visited.length + 1) id depth, Ev.getTextCall id]
        ++ (if depth < maxD then [Ev.getLinksCall id] else [])
        ++ (if rest = [] then [] else [Ev.sleep])
        ++ scrapeAutoCount env maxD fuel rest (id :: visited) := by
  have hse : stepEntries env maxD id depth visited = [] := by
    unfold stepEntries
    rw [get_internal_links_of_fetchFail env id hfail]
    simp [enqueueNew]
  rw [scrapeAutoCount_process env maxD fuel id depth rest visited hv, hse]
  unfold stepTrace
  rw [hse, get_text_of_fetchFail env id hfail]
  simp [textEvents]

/-! ## Claim theorems -/

/-- C1: for every crawl run with configured maximum depth D, every
processed node (dequeued and not skipped as visited) carries depth at
most D; every enqueue event carries a positive depth at most D, so
children stem only from parents of depth strictly below D and no node at
depth D has children enqueued; and for D equal to zero only the seed is
processed and no link is ever enqueued. -/
theorem C1_depth_bound (env : Env) (maxD fuel : Nat) (seed : Str) :
    (∀ n id d, Ev.processing n id d ∈ scrapeAutoCount env maxD fuel [(seed, 0)] [] →
      d ≤ maxD) ∧
    (∀ id d, Ev.enqueue id d ∈ scrapeAutoCount env maxD fuel [(seed, 0)] [] →
      0 < d ∧ d ≤ maxD) ∧
    (maxD = 0 →
      (∀ n id d, Ev.processing n id d ∈ scrapeAutoCount env maxD fuel [(seed, 0)] [] →
        id = seed ∧ d = 0) ∧
      (∀ id d, Ev.enqueue id d ∉ scrapeAutoCount env maxD fuel [(seed, 0)] [])) := by
  have hq0 : ∀ p ∈ ([(seed, 0)] : List (Str × Nat)), p.2 ≤ maxD := by
    intro p hp
    rcases List.mem_cons.1 hp with rfl | hp
    · exact Nat.zero_le _
    · cases hp
  have hinv := sac_depth_inv env maxD fuel [(seed, 0)] [] hq0
  refine ⟨fun n id d h => (hinv _ h).1 n id d rfl,
    fun id d h => (hinv _ h).2 id d rfl, ?_⟩
  intro h0
  subst h0
  exact ⟨fun n id d h => (sac_depthZero env fuel seed _ h).1 n id d rfl,
    fun id d h => (sac_depthZero env fuel seed _ h).2 id d rfl⟩

theorem C1_depth_bound_wit : (1 : Nat) ≤ 2 :=
  (C1_depth_bound envTriangle 2 10 ("A".toList)).1 2 ("B".toList) 1 (by decide)

/-- C2: in every crawl run each identifier is processed at most once
(the list of processed identifiers has no duplicate), and a dequeued
identifier already in the visited set is skipped with no side effects at
all: its loop iteration contributes nothing to the trace, no pacing
sleep included, and leaves the visited set unchanged. -/
theorem C2_no_reprocessing (env : Env) (maxD fuel : Nat) (seed : Str) :
    (processingIds (scrapeAutoCount env maxD fuel [(seed, 0)] [])).Nodup ∧
    (∀ (fuel2 : Nat) (id : Str) (d : Nat) (rest : List (Str × Nat)) (visited : List Str),
      id ∈ visited →
      scrapeAutoCount env maxD (fuel2 + 1) ((id, d) :: rest) visited =
        scrapeAutoCount env maxD fuel2 rest visited) :=
  ⟨(sac_fresh_nodup env maxD fuel [(seed, 0)] []).2,
   fun fuel2 id d rest visited h => scrapeAutoCount_skip env maxD fuel2 id d rest visited h⟩

theorem C2_no_reprocessing_wit :
    scrapeAutoCount envTriangle 2 4 [(("A".toList), 1)] ["A".toList] =
      scrapeAutoCount envTriangle 2 3 [] ["A".toList] :=
  (C2_no_reprocessing envTriangle 2 0 ("A".toList)).2 3 ("A".toList) 1 [] ["A".toList]
    (by decide)

/-- C3 counterexample: with a seed whose fetch fails, the crawl loop
nevertheless issues the get_internal_links call for the failed node (the
code reaches the link-expansion step instead of continuing directly to
the next queue item), and the complete trace of the run shows that no
per-node failure outcome of any kind is recorded: the loop emits only the
uniform progress line and the two collaborator calls, and the function
returns nothing resembling a report of (identifier, depth, outcome). -/
theorem C3_cex :
    get_text envAllFail ("A".toList) = none ∧
    scrapeAutoCount envAllFail 1 5 [(("A".toList), 0)] [] =
      [Ev.processing 1 ("A".toList) 0, Ev.getTextCall ("A".toList),
        Ev.getLinksCall ("A".toList)] ∧
    Ev.getLinksCall ("A".toList) ∈ scrapeAutoCount envAllFail 1 5 [(("A".toList), 0)] [] :=
  ⟨rfl, by decide, by decide⟩

/-- C3 as amended: for every node whose fetch fails, the crawl loop
performs no merge, aborts nothing, and continues with the untouched rest
of the queue; it still invokes get_internal_links for the failed node
whenever its depth is below the maximum (a second fetch attempt, which
deterministically yields no links, so nothing is enqueued from the failed
node); and no per-node failure record is produced beyond the uniform
progress line. -/
theorem C3_failure_handling (env : Env) (maxD fuel : Nat) (id : Str) (depth : Nat)
    (rest : List (Str × Nat)) (visited : List Str)
    (hfail : env id = SoupRes.fetchFail) (hv : id ∉ visited) :
    scrapeAutoCount env maxD (fuel + 1) ((id, depth) :: rest) visited =
      [Ev.processing (visited.length + 1) id depth, Ev.getTextCall id]
        ++ (if depth < maxD then [Ev.getLinksCall id] else [])
        ++ (if rest = [] then [] else [Ev.sleep])
        ++ scrapeAutoCount env maxD fuel rest (id :: visited) :=
  sac_fetchFail_step env maxD fuel id depth rest visited hfail hv

theorem C3_failure_handling_wit :
    scrapeAutoCount envAllFail 1 5 [(("A".toList), 0)] [] =
      [Ev.processing 1 ("A".toList) 0, Ev.getTextCall ("A".toList)]
        ++ (if 0 < 1 then [Ev.getLinksCall ("A".toList)] else [])
        ++ (if ([] : List (Str × Nat)) = [] then [] else [Ev.sleep])
        ++ scrapeAutoCount envAllFail 1 4 [] ["A".toList] :=
  C3_failure_handling envAllFail 1 4 ("A".toList) 0 [] [] rfl (by decide)

/-- C4 counterexample: in the three-page run over envTriangle (three
distinct pages processed, so N is three, above one) the trace ends with a
pacing sleep occurring after the final processed node: the queue was
still holding an already-visited duplicate of page C when C itself, the
last fresh node, finished, so line 122's non-empty-queue test passed and
one sleep was charged after the last processed node, refuting the claimed
exact zero. -/
theorem C4_cex :
    1 < (processingIds (scrapeAutoCount envTriangle 2 10 [(("A".toList), 0)] [])).length ∧
    sleepsAfterLastProcessing (scrapeAutoCount envTriangle 2 10 [(("A".toList), 0)] []) = 1 :=
  ⟨by decide, by decide⟩

/-- C4 as amended: every sleep models the blocking call of line 123,
which waits at least the configured pace.  In every run, any two
successive processed nodes are separated by at least one pacing sleep,
and the number of processed nodes never exceeds the number of sleeps plus
one (so a run processing N nodes performs at least N minus one sleeps);
a dequeued already-visited duplicate incurs no pacing sleep; but a sleep
can occur after the final processed node, namely when stale
already-visited duplicates are still queued at that moment, as the
envTriangle run shows. -/
theorem C4_pacing :
    (∀ (env : Env) (maxD fuel : Nat) (q : List (Str × Nat)) (visited : List Str),
      pacedOK (scrapeAutoCount env maxD fuel q visited) = true ∧
      (processingIds (scrapeAutoCount env maxD fuel q visited)).length ≤
        sleepCount (scrapeAutoCount env maxD fuel q visited) + 1) ∧
    sleepsAfterLastProcessing (scrapeAutoCount envTriangle 2 10 [(("A".toList), 0)] []) = 1 ∧
    (∀ (env : Env) (maxD fuel2 : Nat) (id : Str) (d : Nat) (rest : List (Str × Nat))
      (visited : List Str), id ∈ visited →
      sleepCount (scrapeAutoCount env maxD (fuel2 + 1) ((id, d) :: rest) visited) =
        sleepCount (scrapeAutoCount env maxD fuel2 rest visited)) := by
  refine ⟨fun env maxD fuel q visited =>
    ⟨sac_paced env maxD fuel q visited, sac_count_pacing env maxD fuel q visited⟩,
    by decide, ?_⟩
  intro env maxD fuel2 id d rest visited h
  rw [scrapeAutoCount_skip env maxD fuel2 id d rest visited h]

theorem C4_pacing_wit :
    sleepCount (scrapeAutoCount envTriangle 2 4 [(("A".toList), 1)] ["A".toList]) =
      sleepCount (scrapeAutoCount envTriangle 2 3 [] ["A".toList]) :=
  C4_pacing.2.2 envTriangle 2 3 ("A".toList) 1 [] ["A".toList] (by decide)

/-- C5 counterexample: the href beginning with the article marker twice
is accepted, and the code (Python str.replace with an empty replacement)
removes both occurrences, so the produced identifier differs from the one
obtained by stripping the leading marker as the claim states. -/
theorem C5_cex :
    filterLinks ["/wiki/A/wiki/B".toList] = ["AB".toList] ∧
    filterLinksSpecced ["/wiki/A/wiki/B".toList] = ["A/wiki/B".toList] ∧
    filterLinks ["/wiki/A/wiki/B".toList] ≠ filterLinksSpecced ["/wiki/A/wiki/B".toList] :=
  ⟨by decide, by decide, by decide⟩

/-- C5 as amended: filterLinks accepts an href exactly when it begins
with the internal-article path marker and contains no colon; each
accepted href has every occurrence of the marker removed (which
coincides with stripping the marker whenever it occurs only at the
start); output order preserves order of appearance and duplicates are
kept; and the example input from the claim yields exactly the single
identifier Valid_Link. -/
theorem C5_filter (hrefs : List Str) :
    filterLinks hrefs = (hrefs.filter acceptHref).map (removeOccs wikiRoot) ∧
    filterLinks ["/wiki/Valid_Link".toList, "https://google.com".toList,
      "/wiki/File:X.png".toList, "/wiki/Talk:Y".toList] = ["Valid_Link".toList] ∧
    filterLinks ["/wiki/X".toList, "/wiki/X".toList] = ["X".toList, "X".toList] :=
  ⟨filterLinks_eq hrefs, by decide, by decide⟩

/-- C6: merging a text adds, for every key, exactly the number of
occurrences of that key among the tokens of the text, where the tokens
arise by whitespace splitting, repeated stripping of the punctuation set
from both ends, lowercasing, and discarding emptied tokens; hence merging
the same text twice exactly doubles each key's delta; the Terraria
example yields count three for the key terraria; and internal punctuation
survives cleaning. -/
theorem C6_tokenize_merge :
    (∀ (s : Store) (t w : Str), mergeText s t w = s w + (tokens t).count w) ∧
    (∀ (s : Store) (t w : Str),
      mergeText (mergeText s t) t w - s w = 2 * (mergeText s t w - s w)) ∧
    mergeText emptyStore ("Terraria, terraria terraria!".toList) ("terraria".toList) = 3 ∧
    cleanToken ("(Don't)".toList) = "don't".toList := by
  refine ⟨mergeText_apply, ?_, by decide, by decide⟩
  intro s t w
  simp only [mergeText_apply]
  omega

/-- C7 counterexample: over envSelfLoop the seed A links to itself and to
B and is processed at depth zero, below the maximum depth one; its
filtered outbound links contain A itself, yet no enqueue of A at depth
one ever happens, because line 117 of src/manager.py checks the visited
set at enqueue time, contradicting the claimed unconditional enqueue. -/
theorem C7_cex :
    "A".toList ∈ get_internal_links envSelfLoop ("A".toList) ∧
    (0 : Nat) < 1 ∧
    Ev.enqueue ("A".toList) 1 ∉ scrapeAutoCount envSelfLoop 1 10 [(("A".toList), 0)] [] :=
  ⟨by decide, by decide, by decide⟩

/-- C7 as amended: when a node is processed below the maximum depth, a
filtered outbound link is enqueued as (link, depth plus one) exactly when
it is not in the visited set at enqueue time (the visited set already
holding the current node); the check is only against the visited set, not
the queue, so the frontier may still transiently hold duplicate entries
for an unvisited node reachable from several parents, as the envTriangle
run shows: C is enqueued at depth one and again at depth two before being
processed once, the dequeue-time check discarding the stale duplicate. -/
theorem C7_enqueue_dedup :
    (∀ (visited links : List Str) (depth : Nat) (l : Str),
      ((l, depth + 1) ∈ enqueueNew visited links depth) ↔ (l ∈ links ∧ l ∉ visited)) ∧
    (∀ (env : Env) (maxD fuel : Nat) (id : Str) (depth : Nat)
      (rest : List (Str × Nat)) (visited : List Str), id ∉ visited →
      scrapeAutoCount env maxD (fuel + 1) ((id, depth) :: rest) visited =
        stepTrace env maxD id depth visited
          ++ (if rest ++ stepEntries env maxD id depth visited = [] then []
              else [Ev.sleep])
          ++ scrapeAutoCount env maxD fuel
              (rest ++ stepEntries env maxD id depth visited) (id :: visited)) ∧
    (Ev.enqueue ("C".toList) 1 ∈ scrapeAutoCount envTriangle 2 10 [(("A".toList), 0)] [] ∧
      Ev.enqueue ("C".toList) 2 ∈ scrapeAutoCount envTriangle 2 10 [(("A".toList), 0)] [] ∧
      (processingIds (scrapeAutoCount envTriangle 2 10
        [(("A".toList), 0)] [])).count ("C".toList) = 1) :=
  ⟨mem_enqueueNew,
   fun env maxD fuel id depth rest visited h =>
     scrapeAutoCount_process env maxD fuel id depth rest visited h,
   by decide, by decide, by decide⟩

theorem C7_enqueue_dedup_wit :
    scrapeAutoCount envSelfLoop 1 10 [(("A".toList), 0)] [] =
      stepTrace envSelfLoop 1 ("A".toList) 0 []
        ++ (if [] ++ stepEntries envSelfLoop 1 ("A".toList) 0 [] = [] then []
            else [Ev.sleep])
        ++ scrapeAutoCount envSelfLoop 1 9
            ([] ++ stepEntries envSelfLoop 1 ("A".toList) 0 []) ["A".toList] :=
  C7_enqueue_dedup.2.1 envSelfLoop 1 9 ("A".toList) 0 [] [] (by decide)

/-- C8: the word counts file is committed by every update_word_counts
call (the save is the last step of the call), so after the k-th merge of
a run the persisted store is exactly the pure merge of the first k texts
into the store loaded at the start; consequently, in the envSeedOk crawl
whose seed succeeds and whose only link B fails to fetch, the words of
the seed page persist untouched by the later failure. -/
theorem C8_store_committed :
    (∀ (fc : FileContent) (texts : List Str) (k : Nat), 1 ≤ k → k ≤ texts.length →
      runMerges fc (texts.take k) =
        FileContent.valid ((texts.take k).foldl mergeText (loadStore fc).1)) ∧
    (loadStore (runMerges FileContent.absent
        (mergedTexts (scrapeAutoCount envSeedOk 1 5 [(("A".toList), 0)] [])))).1
      ("hello".toList) = 1 ∧
    (loadStore (runMerges FileContent.absent
        (mergedTexts (scrapeAutoCount envSeedOk 1 5 [(("A".toList), 0)] [])))).1
      ("world".toList) = 1 ∧
    get_text envSeedOk ("B".toList) = none := by
  refine ⟨?_, by decide, by decide, rfl⟩
  intro fc texts k h1 h2
  cases texts with
  | nil =>
    simp only [List.length_nil] at h2
    omega
  | cons t ts =>
    cases k with
    | zero => omega
    | succ k =>
      rw [List.take_succ_cons]
      have hstep : runMerges fc (t :: ts.take k) =
          runMerges (FileContent.valid (mergeText (loadStore fc).1 t)) (ts.take k) := rfl
      rw [hstep, runMerges_valid, List.foldl_cons]

theorem C8_store_committed_wit :
    runMerges FileContent.absent (["hi there".toList].take 1) =
      FileContent.valid ((["hi there".toList].take 1).foldl mergeText
        (loadStore FileContent.absent).1) :=
  C8_store_committed.1 FileContent.absent ["hi there".toList] 1 (by decide) (by decide)

/-- C9: loading a store file holding unparseable content yields the empty
store together with the decode warning, never a failure of the run (the
loader is total and merging proceeds); and the following merge and save
produce a valid store from scratch, which then loads cleanly with no
warning and holds the merged counts. -/
theorem C9_store_resilience (t : Str) :
    loadStore FileContent.corrupt = (emptyStore, true) ∧
    update_word_counts FileContent.corrupt t =
      (FileContent.valid (mergeText emptyStore t), true) ∧
    loadStore (update_word_counts FileContent.corrupt t).1 =
      (mergeText emptyStore t, false) ∧
    (loadStore (update_word_counts FileContent.corrupt ("hi hi".toList)).1).1
      ("hi".toList) = 2 :=
  ⟨rfl, rfl, rfl, by decide⟩

/-- C10: the dependency check of the frequency-analysis action tests
Python truthiness of count, so an explicit count of zero is rejected with
exactly the same fatal configuration error as an absent count (the
validation result is unchanged by replacing a zero count with an absent
one), whereas the recursive-crawl checks compare depth and wait against
None only, so depth zero and wait zero are accepted. -/
theorem C10_count_truthiness :
    (∀ a : PyArgs, a.count = some 0 →
      validate_dependencies a = validate_dependencies (setCount a none)) ∧
    validate_dependencies argsFreqZero = Except.error msgFreqCount ∧
    validate_dependencies (setCount argsFreqZero none) = Except.error msgFreqCount ∧
    validate_dependencies argsAutoZero = Except.ok () := by
  refine ⟨?_, rfl, rfl, rfl⟩
  intro a h
  obtain ⟨s, tb, cw, an, ac, nu, fr, mo, co, ch, de, wa⟩ := a
  simp only at h
  subst h
  rfl

theorem C10_count_truthiness_wit :
    validate_dependencies argsFreqZero = validate_dependencies (setCount argsFreqZero none) :=
  C10_count_truthiness.1 argsFreqZero rfl
